import Mathlib

/-!
Shallow embedding of `libcobblersignatures/models/osversion.py`.

`PyValue` models the JSON-compatible Python values that appear in signature
document fragments (str, bool, int, list, dict with string keys, None).
`pyEq` models Python `==` on those values: dictionaries compare as maps
(insertion order irrelevant) and `True == 1` holds, as in Python.
`Osversion` models the class of the same name; each property setter of the
source becomes a function returning `Except String Osversion` (the `String`
is the `TypeError` message of the source), each deleter a plain function,
and `encode` / `decode` are translated statement by statement.
-/

inductive PyValue where
  | str : String → PyValue
  | bool : Bool → PyValue
  | int : Int → PyValue
  | list : List PyValue → PyValue
  | dict : List (String × PyValue) → PyValue
  | none : PyValue
deriving Repr

/-- A document fragment: a Python dict with string keys, modelled as an
association list whose keys are unique in any state reachable from Python. -/
abbrev Fragment : Type := List (String × PyValue)

/-- Python `d.get(key)` returning an `Option`: the value at the first
occurrence of `key`, if any. -/
def dictFind : List (String × PyValue) → String → Option PyValue
  | [], _ => Option.none
  | (k2, v) :: rest, k => if k = k2 then Option.some v else dictFind rest k

/-- Python `d.get(key, dflt)`. -/
def dictGet (d : List (String × PyValue)) (k : String) (dflt : PyValue) : PyValue :=
  (dictFind d k).getD dflt

/-- Membership of a key in a Python dict modelled as an association list. -/
def keyMem (k : String) : List (String × PyValue) → Bool
  | [] => false
  | (k2, _) :: rest => k = k2 || keyMem k rest

/-- The keys of a dict are pairwise distinct (always true of a real Python
dict; the association-list model needs it as an explicit invariant). -/
def keysNodupB : List (String × PyValue) → Bool
  | [] => true
  | (k, _) :: rest => !(keyMem k rest) && keysNodupB rest

mutual

/-- Python `==` on `PyValue`: structural on scalars except that `bool` and
`int` compare across types as in Python (`True == 1`), lists compare
elementwise in order, dicts compare as maps (same size and every pair of the
left dict matches the looked-up value in the right dict). -/
def pyEq : PyValue → PyValue → Bool
  | PyValue.str a, PyValue.str b => a = b
  | PyValue.bool a, PyValue.bool b => a = b
  | PyValue.bool a, PyValue.int b => (if a then (1 : Int) else 0) = b
  | PyValue.int a, PyValue.bool b => a = (if b then (1 : Int) else 0)
  | PyValue.int a, PyValue.int b => a = b
  | PyValue.list a, PyValue.list b => pyEqList a b
  | PyValue.dict a, PyValue.dict b => (a.length = b.length) && pyEqPairs a b
  | PyValue.none, PyValue.none => true
  | _, _ => false
termination_by a b => sizeOf a + sizeOf b

/-- Python `==` on lists: same length and elementwise `pyEq`, in order. -/
def pyEqList : List PyValue → List PyValue → Bool
  | [], [] => true
  | x :: xs, y :: ys => pyEq x y && pyEqList xs ys
  | _, _ => false
termination_by a b => sizeOf a + sizeOf b

/-- Every pair of the first dict matches the second dict under lookup. -/
def pyEqPairs : List (String × PyValue) → List (String × PyValue) → Bool
  | [], _ => true
  | (k, v) :: rest, d => pyEqLookup k v d && pyEqPairs rest d
termination_by a b => sizeOf a + sizeOf b

/-- Look `k` up in `d` and compare the found value with `v` by `pyEq`. -/
def pyEqLookup : String → PyValue → List (String × PyValue) → Bool
  | _, _, [] => false
  | k, v, (k2, v2) :: rest => if k = k2 then pyEq v v2 else pyEqLookup k v rest
termination_by _ v d => sizeOf v + sizeOf d

end

mutual

/-- A `PyValue` is reachable from Python iff every dict inside it has
pairwise-distinct keys. -/
def wf : PyValue → Bool
  | PyValue.list l => wfList l
  | PyValue.dict d => keysNodupB d && wfPairs d
  | _ => true
termination_by v => sizeOf v

/-- All elements of the list are well formed. -/
def wfList : List PyValue → Bool
  | [] => true
  | x :: xs => wf x && wfList xs
termination_by l => sizeOf l

/-- All values of the dict are well formed. -/
def wfPairs : List (String × PyValue) → Bool
  | [] => true
  | (_, v) :: rest => wf v && wfPairs rest
termination_by d => sizeOf d

end

/-- The class `Osversion` (`osversion.py`, lines 52-77): one operating-system
version's attribute set. Field types reflect exactly what each source setter
guarantees: `isinstance(_, str)` fields are `String`, `isinstance(_, list)`
fields are `List PyValue` (element types are never checked by the source),
`isolinux_ok` is `Bool`, `boot_loaders` is a dict. -/
structure Osversion where
  signatures : List PyValue
  version_file : String
  version_file_regex : String
  kernel_arch : String
  kernel_arch_regex : String
  supported_arches : List PyValue
  supported_repo_breeds : List PyValue
  kernel_file : String
  initrd_file : String
  isolinux_ok : Bool
  default_autoinstall : String
  kernel_options : String
  kernel_options_post : String
  template_files : String
  boot_files : List PyValue
  boot_loaders : List (String × PyValue)
deriving Repr

/-- `Osversion.__init__`: default values for all attributes. -/
def Osversion.initial : Osversion :=
  { signatures := []
    version_file := ""
    version_file_regex := ""
    kernel_arch := ""
    kernel_arch_regex := ""
    supported_arches := []
    supported_repo_breeds := []
    kernel_file := ""
    initrd_file := ""
    isolinux_ok := false
    default_autoinstall := ""
    kernel_options := ""
    kernel_options_post := ""
    template_files := ""
    boot_files := []
    boot_loaders := [] }

/-- `signatures` setter: accepts any list, else `TypeError`. -/
def Osversion.set_signatures (o : Osversion) : PyValue → Except String Osversion
  | PyValue.list l => Except.ok { o with signatures := l }
  | _ => Except.error "Signatures should be a list."

/-- `version_file` setter: accepts any str, else `TypeError`. -/
def Osversion.set_version_file (o : Osversion) : PyValue → Except String Osversion
  | PyValue.str s => Except.ok { o with version_file := s }
  | _ => Except.error "The version_file should be a str."

/-- `version_file_regex` setter: accepts any str, else `TypeError`. -/
def Osversion.set_version_file_regex (o : Osversion) : PyValue → Except String Osversion
  | PyValue.str s => Except.ok { o with version_file_regex := s }
  | _ => Except.error "The version_file_regex should be a str."

/-- `kernel_arch` setter: accepts any str, else `TypeError`. -/
def Osversion.set_kernel_arch (o : Osversion) : PyValue → Except String Osversion
  | PyValue.str s => Except.ok { o with kernel_arch := s }
  | _ => Except.error "The kernel_arch should be a str."

/-- `kernel_arch_regex` setter: accepts any str, else `TypeError`. -/
def Osversion.set_kernel_arch_regex (o : Osversion) : PyValue → Except String Osversion
  | PyValue.str s => Except.ok { o with kernel_arch_regex := s }
  | _ => Except.error "The kernel_arch_regex should be a str."

/-- `supported_arches` setter: accepts any list, else `TypeError`. -/
def Osversion.set_supported_arches (o : Osversion) : PyValue → Except String Osversion
  | PyValue.list l => Except.ok { o with supported_arches := l }
  | _ => Except.error "The supported_arches should be a list."

/-- `supported_repo_breeds` setter: accepts any list, else `TypeError`. -/
def Osversion.set_supported_repo_breeds (o : Osversion) : PyValue → Except String Osversion
  | PyValue.list l => Except.ok { o with supported_repo_breeds := l }
  | _ => Except.error "The supported_repo_breeds should be a list."

/-- `kernel_file` setter: accepts any str, else `TypeError`. -/
def Osversion.set_kernel_file (o : Osversion) : PyValue → Except String Osversion
  | PyValue.str s => Except.ok { o with kernel_file := s }
  | _ => Except.error "The kernel_file should be a str."

/-- `initrd_file` setter: accepts any str, else `TypeError`. -/
def Osversion.set_initrd_file (o : Osversion) : PyValue → Except String Osversion
  | PyValue.str s => Except.ok { o with initrd_file := s }
  | _ => Except.error "The initrd_file should be a str."

/-- `isolinux_ok` setter: accepts any bool, else `TypeError`. -/
def Osversion.set_isolinux_ok (o : Osversion) : PyValue → Except String Osversion
  | PyValue.bool b => Except.ok { o with isolinux_ok := b }
  | _ => Except.error "The isolinux_ok should be a bool."

/-- `default_autoinstall` setter: accepts any str, else `TypeError`. -/
def Osversion.set_default_autoinstall (o : Osversion) : PyValue → Except String Osversion
  | PyValue.str s => Except.ok { o with default_autoinstall := s }
  | _ => Except.error "The default_autoinstall should be a str."

/-- `kernel_options` setter: accepts any str, else `TypeError`. -/
def Osversion.set_kernel_options (o : Osversion) : PyValue → Except String Osversion
  | PyValue.str s => Except.ok { o with kernel_options := s }
  | _ => Except.error "The kernel_options should be a str."

/-- `kernel_options_post` setter: accepts any str, else `TypeError`. -/
def Osversion.set_kernel_options_post (o : Osversion) : PyValue → Except String Osversion
  | PyValue.str s => Except.ok { o with kernel_options_post := s }
  | _ => Except.error "The kernel_options_post should be a str."

/-- `template_files` setter: accepts any str, else `TypeError`. -/
def Osversion.set_template_files (o : Osversion) : PyValue → Except String Osversion
  | PyValue.str s => Except.ok { o with template_files := s }
  | _ => Except.error "The template_files should be a str."

/-- `boot_files` setter: accepts any list, else `TypeError`. -/
def Osversion.set_boot_files (o : Osversion) : PyValue → Except String Osversion
  | PyValue.list l => Except.ok { o with boot_files := l }
  | _ => Except.error "The boot_files should be a list."

/-- `boot_loaders` setter: accepts any dict, else `TypeError`. -/
def Osversion.set_boot_loaders (o : Osversion) : PyValue → Except String Osversion
  | PyValue.dict d => Except.ok { o with boot_loaders := d }
  | _ => Except.error "The boot_loaders should be a dict."

/-- `signatures` deleter: resets to an empty list. -/
def Osversion.del_signatures (o : Osversion) : Osversion := { o with signatures := [] }

/-- `version_file` deleter: resets to an empty string. -/
def Osversion.del_version_file (o : Osversion) : Osversion := { o with version_file := "" }

/-- `version_file_regex` deleter: resets to an empty string. -/
def Osversion.del_version_file_regex (o : Osversion) : Osversion := { o with version_file_regex := "" }

/-- `kernel_arch` deleter: resets to an empty string. -/
def Osversion.del_kernel_arch (o : Osversion) : Osversion := { o with kernel_arch := "" }

/-- `kernel_arch_regex` deleter: resets to an empty string. -/
def Osversion.del_kernel_arch_regex (o : Osversion) : Osversion := { o with kernel_arch_regex := "" }

/-- `supported_arches` deleter: resets to an empty list. -/
def Osversion.del_supported_arches (o : Osversion) : Osversion := { o with supported_arches := [] }

/-- `supported_repo_breeds` deleter: resets to an empty list. -/
def Osversion.del_supported_repo_breeds (o : Osversion) : Osversion := { o with supported_repo_breeds := [] }

/-- `kernel_file` deleter: resets to an empty string. -/
def Osversion.del_kernel_file (o : Osversion) : Osversion := { o with kernel_file := "" }

/-- `initrd_file` deleter: resets to an empty string. -/
def Osversion.del_initrd_file (o : Osversion) : Osversion := { o with initrd_file := "" }

/-- `isolinux_ok` deleter: resets to `False`. -/
def Osversion.del_isolinux_ok (o : Osversion) : Osversion := { o with isolinux_ok := false }

/-- `default_autoinstall` deleter: resets to an empty string. -/
def Osversion.del_default_autoinstall (o : Osversion) : Osversion := { o with default_autoinstall := "" }

/-- `kernel_options` deleter: resets to an empty string. -/
def Osversion.del_kernel_options (o : Osversion) : Osversion := { o with kernel_options := "" }

/-- `kernel_options_post` deleter: resets to an empty string. -/
def Osversion.del_kernel_options_post (o : Osversion) : Osversion := { o with kernel_options_post := "" }

/-- `template_files` deleter: resets to an empty string. -/
def Osversion.del_template_files (o : Osversion) : Osversion := { o with template_files := "" }

/-- `boot_files` deleter: resets to an empty list. -/
def Osversion.del_boot_files (o : Osversion) : Osversion := { o with boot_files := [] }

/-- `boot_loaders` deleter: resets to an empty dict. -/
def Osversion.del_boot_loaders (o : Osversion) : Osversion := { o with boot_loaders := [] }

/-- `Osversion.__eq__` (lines 79-104): true iff all sixteen attributes are
equal under Python `==`. The source compares `other._template_files` (the
attribute, not the property) on line 102; the property returns the same
attribute, so both read the same value. -/
def Osversion.eq (a b : Osversion) : Bool :=
  pyEqList a.signatures b.signatures
  && a.version_file = b.version_file
  && a.version_file_regex = b.version_file_regex
  && a.kernel_arch = b.kernel_arch
  && a.kernel_arch_regex = b.kernel_arch_regex
  && pyEqList a.supported_arches b.supported_arches
  && pyEqList a.supported_repo_breeds b.supported_repo_breeds
  && a.kernel_file = b.kernel_file
  && a.initrd_file = b.initrd_file
  && a.isolinux_ok = b.isolinux_ok
  && a.default_autoinstall = b.default_autoinstall
  && a.kernel_options = b.kernel_options
  && a.kernel_options_post = b.kernel_options_post
  && a.template_files = b.template_files
  && pyEqList a.boot_files b.boot_files
  && ((a.boot_loaders.length = b.boot_loaders.length) && pyEqPairs a.boot_loaders b.boot_loaders)

/-- `Osversion.encode` (lines 624-647): the dict with the sixteen keys in
source order; line 644 reads `self._template_files` directly, the same value
as the property. -/
def Osversion.encode (o : Osversion) : Fragment :=
  [("signatures", PyValue.list o.signatures),
   ("version_file", PyValue.str o.version_file),
   ("version_file_regex", PyValue.str o.version_file_regex),
   ("kernel_arch", PyValue.str o.kernel_arch),
   ("kernel_arch_regex", PyValue.str o.kernel_arch_regex),
   ("supported_arches", PyValue.list o.supported_arches),
   ("supported_repo_breeds", PyValue.list o.supported_repo_breeds),
   ("kernel_file", PyValue.str o.kernel_file),
   ("initrd_file", PyValue.str o.initrd_file),
   ("isolinux_ok", PyValue.bool o.isolinux_ok),
   ("default_autoinstall", PyValue.str o.default_autoinstall),
   ("kernel_options", PyValue.str o.kernel_options),
   ("kernel_options_post", PyValue.str o.kernel_options_post),
   ("template_files", PyValue.str o.template_files),
   ("boot_files", PyValue.list o.boot_files),
   ("boot_loaders", PyValue.dict o.boot_loaders)]

/-- `Osversion.decode` (lines 649-670): assigns the sixteen attributes in
source order through the setters, `data.get(key, default)` supplying the
default when the key is missing. The source's default for `kernel_file`
(line 662) is the list `[]`, not a string — transcribed as written. A raised
`TypeError` stops the method, leaving the attributes assigned so far; this is
modelled by returning the record state at the failure together with the
error message. -/
def Osversion.decode (o : Osversion) (data : Fragment) : Osversion × Option String :=
  match o.set_signatures (dictGet data "signatures" (PyValue.list [])) with
  | Except.error e => (o, Option.some e)
  | Except.ok o1 =>
  match o1.set_version_file (dictGet data "version_file" (PyValue.str "")) with
  | Except.error e => (o1, Option.some e)
  | Except.ok o2 =>
  match o2.set_version_file_regex (dictGet data "version_file_regex" (PyValue.str "")) with
  | Except.error e => (o2, Option.some e)
  | Except.ok o3 =>
  match o3.set_kernel_arch (dictGet data "kernel_arch" (PyValue.str "")) with
  | Except.error e => (o3, Option.some e)
  | Except.ok o4 =>
  match o4.set_kernel_arch_regex (dictGet data "kernel_arch_regex" (PyValue.str "")) with
  | Except.error e => (o4, Option.some e)
  | Except.ok o5 =>
  match o5.set_supported_arches (dictGet data "supported_arches" (PyValue.list [])) with
  | Except.error e => (o5, Option.some e)
  | Except.ok o6 =>
  match o6.set_supported_repo_breeds (dictGet data "supported_repo_breeds" (PyValue.list [])) with
  | Except.error e => (o6, Option.some e)
  | Except.ok o7 =>
  match o7.set_kernel_file (dictGet data "kernel_file" (PyValue.list [])) with
  | Except.error e => (o7, Option.some e)
  | Except.ok o8 =>
  match o8.set_initrd_file (dictGet data "initrd_file" (PyValue.str "")) with
  | Except.error e => (o8, Option.some e)
  | Except.ok o9 =>
  match o9.set_isolinux_ok (dictGet data "isolinux_ok" (PyValue.bool false)) with
  | Except.error e => (o9, Option.some e)
  | Except.ok o10 =>
  match o10.set_default_autoinstall (dictGet data "default_autoinstall" (PyValue.str "")) with
  | Except.error e => (o10, Option.some e)
  | Except.ok o11 =>
  match o11.set_kernel_options (dictGet data "kernel_options" (PyValue.str "")) with
  | Except.error e => (o11, Option.some e)
  | Except.ok o12 =>
  match o12.set_kernel_options_post (dictGet data "kernel_options_post" (PyValue.str "")) with
  | Except.error e => (o12, Option.some e)
  | Except.ok o13 =>
  match o13.set_template_files (dictGet data "template_files" (PyValue.str "")) with
  | Except.error e => (o13, Option.some e)
  | Except.ok o14 =>
  match o14.set_boot_files (dictGet data "boot_files" (PyValue.list [])) with
  | Except.error e => (o14, Option.some e)
  | Except.ok o15 =>
  match o15.set_boot_loaders (dictGet data "boot_loaders" (PyValue.dict [])) with
  | Except.error e => (o15, Option.some e)
  | Except.ok o16 => (o16, Option.none)

/-- The sixteen attributes of `Osversion`, in the fixed order in which
`decode` assigns them (also the key order of `encode`). -/
inductive FieldName where
  | signatures
  | version_file
  | version_file_regex
  | kernel_arch
  | kernel_arch_regex
  | supported_arches
  | supported_repo_breeds
  | kernel_file
  | initrd_file
  | isolinux_ok
  | default_autoinstall
  | kernel_options
  | kernel_options_post
  | template_files
  | boot_files
  | boot_loaders
deriving DecidableEq, Repr

/-- Position of a field in `decode`'s assignment order. -/
def FieldName.pos : FieldName → Nat
  | FieldName.signatures => 0
  | FieldName.version_file => 1
  | FieldName.version_file_regex => 2
  | FieldName.kernel_arch => 3
  | FieldName.kernel_arch_regex => 4
  | FieldName.supported_arches => 5
  | FieldName.supported_repo_breeds => 6
  | FieldName.kernel_file => 7
  | FieldName.initrd_file => 8
  | FieldName.isolinux_ok => 9
  | FieldName.default_autoinstall => 10
  | FieldName.kernel_options => 11
  | FieldName.kernel_options_post => 12
  | FieldName.template_files => 13
  | FieldName.boot_files => 14
  | FieldName.boot_loaders => 15

/-- The document key of a field. -/
def FieldName.key : FieldName → String
  | FieldName.signatures => "signatures"
  | FieldName.version_file => "version_file"
  | FieldName.version_file_regex => "version_file_regex"
  | FieldName.kernel_arch => "kernel_arch"
  | FieldName.kernel_arch_regex => "kernel_arch_regex"
  | FieldName.supported_arches => "supported_arches"
  | FieldName.supported_repo_breeds => "supported_repo_breeds"
  | FieldName.kernel_file => "kernel_file"
  | FieldName.initrd_file => "initrd_file"
  | FieldName.isolinux_ok => "isolinux_ok"
  | FieldName.default_autoinstall => "default_autoinstall"
  | FieldName.kernel_options => "kernel_options"
  | FieldName.kernel_options_post => "kernel_options_post"
  | FieldName.template_files => "template_files"
  | FieldName.boot_files => "boot_files"
  | FieldName.boot_loaders => "boot_loaders"

/-- All sixteen fields in `decode`'s assignment order. -/
def allFields : List FieldName :=
  [FieldName.signatures, FieldName.version_file, FieldName.version_file_regex,
   FieldName.kernel_arch, FieldName.kernel_arch_regex, FieldName.supported_arches,
   FieldName.supported_repo_breeds, FieldName.kernel_file, FieldName.initrd_file,
   FieldName.isolinux_ok, FieldName.default_autoinstall, FieldName.kernel_options,
   FieldName.kernel_options_post, FieldName.template_files, FieldName.boot_files,
   FieldName.boot_loaders]

/-- The sixteen recognized document keys, in `encode`'s order. -/
def fieldNamesList : List String :=
  ["signatures", "version_file", "version_file_regex", "kernel_arch",
   "kernel_arch_regex", "supported_arches", "supported_repo_breeds",
   "kernel_file", "initrd_file", "isolinux_ok", "default_autoinstall",
   "kernel_options", "kernel_options_post", "template_files", "boot_files",
   "boot_loaders"]

/-- The missing-key default that `decode` passes to `data.get` for each
field, exactly as written in the source — the default for `kernel_file` on
line 662 is the list `[]`. -/
def decodeDefaultOf : FieldName → PyValue
  | FieldName.signatures => PyValue.list []
  | FieldName.version_file => PyValue.str ""
  | FieldName.version_file_regex => PyValue.str ""
  | FieldName.kernel_arch => PyValue.str ""
  | FieldName.kernel_arch_regex => PyValue.str ""
  | FieldName.supported_arches => PyValue.list []
  | FieldName.supported_repo_breeds => PyValue.list []
  | FieldName.kernel_file => PyValue.list []
  | FieldName.initrd_file => PyValue.str ""
  | FieldName.isolinux_ok => PyValue.bool false
  | FieldName.default_autoinstall => PyValue.str ""
  | FieldName.kernel_options => PyValue.str ""
  | FieldName.kernel_options_post => PyValue.str ""
  | FieldName.template_files => PyValue.str ""
  | FieldName.boot_files => PyValue.list []
  | FieldName.boot_loaders => PyValue.dict []

/-- The value a field's deleter resets it to (the documented default):
empty string, empty list, `False`, or empty dict. -/
def resetValue : FieldName → PyValue
  | FieldName.signatures => PyValue.list []
  | FieldName.version_file => PyValue.str ""
  | FieldName.version_file_regex => PyValue.str ""
  | FieldName.kernel_arch => PyValue.str ""
  | FieldName.kernel_arch_regex => PyValue.str ""
  | FieldName.supported_arches => PyValue.list []
  | FieldName.supported_repo_breeds => PyValue.list []
  | FieldName.kernel_file => PyValue.str ""
  | FieldName.initrd_file => PyValue.str ""
  | FieldName.isolinux_ok => PyValue.bool false
  | FieldName.default_autoinstall => PyValue.str ""
  | FieldName.kernel_options => PyValue.str ""
  | FieldName.kernel_options_post => PyValue.str ""
  | FieldName.template_files => PyValue.str ""
  | FieldName.boot_files => PyValue.list []
  | FieldName.boot_loaders => PyValue.dict []

/-- Whether a value is a Python `str`. -/
def PyValue.isStr : PyValue → Bool
  | PyValue.str _ => true
  | _ => false

/-- Whether a value is a Python `bool`. -/
def PyValue.isBool : PyValue → Bool
  | PyValue.bool _ => true
  | _ => false

/-- Whether a value is a Python `list`. -/
def PyValue.isList : PyValue → Bool
  | PyValue.list _ => true
  | _ => false

/-- Whether a value is a Python `dict`. -/
def PyValue.isDict : PyValue → Bool
  | PyValue.dict _ => true
  | _ => false

/-- The `isinstance` check each setter performs on its argument: `str`,
`bool`, `list` or `dict` depending on the field's declared type. -/
def declaredOk : FieldName → PyValue → Bool
  | FieldName.signatures, v => v.isList
  | FieldName.version_file, v => v.isStr
  | FieldName.version_file_regex, v => v.isStr
  | FieldName.kernel_arch, v => v.isStr
  | FieldName.kernel_arch_regex, v => v.isStr
  | FieldName.supported_arches, v => v.isList
  | FieldName.supported_repo_breeds, v => v.isList
  | FieldName.kernel_file, v => v.isStr
  | FieldName.initrd_file, v => v.isStr
  | FieldName.isolinux_ok, v => v.isBool
  | FieldName.default_autoinstall, v => v.isStr
  | FieldName.kernel_options, v => v.isStr
  | FieldName.kernel_options_post, v => v.isStr
  | FieldName.template_files, v => v.isStr
  | FieldName.boot_files, v => v.isList
  | FieldName.boot_loaders, v => v.isDict

/-- The `TypeError` message each setter raises on a wrong-typed value. -/
def errMsgOf : FieldName → String
  | FieldName.signatures => "Signatures should be a list."
  | FieldName.version_file => "The version_file should be a str."
  | FieldName.version_file_regex => "The version_file_regex should be a str."
  | FieldName.kernel_arch => "The kernel_arch should be a str."
  | FieldName.kernel_arch_regex => "The kernel_arch_regex should be a str."
  | FieldName.supported_arches => "The supported_arches should be a list."
  | FieldName.supported_repo_breeds => "The supported_repo_breeds should be a list."
  | FieldName.kernel_file => "The kernel_file should be a str."
  | FieldName.initrd_file => "The initrd_file should be a str."
  | FieldName.isolinux_ok => "The isolinux_ok should be a bool."
  | FieldName.default_autoinstall => "The default_autoinstall should be a str."
  | FieldName.kernel_options => "The kernel_options should be a str."
  | FieldName.kernel_options_post => "The kernel_options_post should be a str."
  | FieldName.template_files => "The template_files should be a str."
  | FieldName.boot_files => "The boot_files should be a list."
  | FieldName.boot_loaders => "The boot_loaders should be a dict."

/-- Read a field through its getter, the result wrapped as a `PyValue`. -/
def Osversion.getField (o : Osversion) : FieldName → PyValue
  | FieldName.signatures => PyValue.list o.signatures
  | FieldName.version_file => PyValue.str o.version_file
  | FieldName.version_file_regex => PyValue.str o.version_file_regex
  | FieldName.kernel_arch => PyValue.str o.kernel_arch
  | FieldName.kernel_arch_regex => PyValue.str o.kernel_arch_regex
  | FieldName.supported_arches => PyValue.list o.supported_arches
  | FieldName.supported_repo_breeds => PyValue.list o.supported_repo_breeds
  | FieldName.kernel_file => PyValue.str o.kernel_file
  | FieldName.initrd_file => PyValue.str o.initrd_file
  | FieldName.isolinux_ok => PyValue.bool o.isolinux_ok
  | FieldName.default_autoinstall => PyValue.str o.default_autoinstall
  | FieldName.kernel_options => PyValue.str o.kernel_options
  | FieldName.kernel_options_post => PyValue.str o.kernel_options_post
  | FieldName.template_files => PyValue.str o.template_files
  | FieldName.boot_files => PyValue.list o.boot_files
  | FieldName.boot_loaders => PyValue.dict o.boot_loaders

/-- Dispatch to the field's setter. -/
def Osversion.setField (o : Osversion) : FieldName → PyValue → Except String Osversion
  | FieldName.signatures => o.set_signatures
  | FieldName.version_file => o.set_version_file
  | FieldName.version_file_regex => o.set_version_file_regex
  | FieldName.kernel_arch => o.set_kernel_arch
  | FieldName.kernel_arch_regex => o.set_kernel_arch_regex
  | FieldName.supported_arches => o.set_supported_arches
  | FieldName.supported_repo_breeds => o.set_supported_repo_breeds
  | FieldName.kernel_file => o.set_kernel_file
  | FieldName.initrd_file => o.set_initrd_file
  | FieldName.isolinux_ok => o.set_isolinux_ok
  | FieldName.default_autoinstall => o.set_default_autoinstall
  | FieldName.kernel_options => o.set_kernel_options
  | FieldName.kernel_options_post => o.set_kernel_options_post
  | FieldName.template_files => o.set_template_files
  | FieldName.boot_files => o.set_boot_files
  | FieldName.boot_loaders => o.set_boot_loaders

/-- Dispatch to the field's deleter. -/
def Osversion.delField (o : Osversion) : FieldName → Osversion
  | FieldName.signatures => o.del_signatures
  | FieldName.version_file => o.del_version_file
  | FieldName.version_file_regex => o.del_version_file_regex
  | FieldName.kernel_arch => o.del_kernel_arch
  | FieldName.kernel_arch_regex => o.del_kernel_arch_regex
  | FieldName.supported_arches => o.del_supported_arches
  | FieldName.supported_repo_breeds => o.del_supported_repo_breeds
  | FieldName.kernel_file => o.del_kernel_file
  | FieldName.initrd_file => o.del_initrd_file
  | FieldName.isolinux_ok => o.del_isolinux_ok
  | FieldName.default_autoinstall => o.del_default_autoinstall
  | FieldName.kernel_options => o.del_kernel_options
  | FieldName.kernel_options_post => o.del_kernel_options_post
  | FieldName.template_files => o.del_template_files
  | FieldName.boot_files => o.del_boot_files
  | FieldName.boot_loaders => o.del_boot_loaders

/-- Overwrite one field with the payload of an accepted value; on a value of
the wrong shape the record is returned unchanged (such calls never arise:
they are guarded by `declaredOk`). -/
def Osversion.updateField (o : Osversion) : FieldName → PyValue → Osversion
  | FieldName.signatures, PyValue.list l => { o with signatures := l }
  | FieldName.version_file, PyValue.str s => { o with version_file := s }
  | FieldName.version_file_regex, PyValue.str s => { o with version_file_regex := s }
  | FieldName.kernel_arch, PyValue.str s => { o with kernel_arch := s }
  | FieldName.kernel_arch_regex, PyValue.str s => { o with kernel_arch_regex := s }
  | FieldName.supported_arches, PyValue.list l => { o with supported_arches := l }
  | FieldName.supported_repo_breeds, PyValue.list l => { o with supported_repo_breeds := l }
  | FieldName.kernel_file, PyValue.str s => { o with kernel_file := s }
  | FieldName.initrd_file, PyValue.str s => { o with initrd_file := s }
  | FieldName.isolinux_ok, PyValue.bool b => { o with isolinux_ok := b }
  | FieldName.default_autoinstall, PyValue.str s => { o with default_autoinstall := s }
  | FieldName.kernel_options, PyValue.str s => { o with kernel_options := s }
  | FieldName.kernel_options_post, PyValue.str s => { o with kernel_options_post := s }
  | FieldName.template_files, PyValue.str s => { o with template_files := s }
  | FieldName.boot_files, PyValue.list l => { o with boot_files := l }
  | FieldName.boot_loaders, PyValue.dict d => { o with boot_loaders := d }
  | _, _ => o

/-- The value `decode` feeds to the field's setter: the fragment's value at
the field's key if present, else the source's written default. -/
def decodeArg (data : Fragment) (f : FieldName) : PyValue :=
  dictGet data f.key (decodeDefaultOf f)

/-- The result of a setter call under Python exception semantics: the new
record on success, the unchanged record when the setter raises. -/
def Osversion.trySetField (o : Osversion) (f : FieldName) (v : PyValue) : Osversion :=
  match o.setField f v with
  | Except.ok o2 => o2
  | Except.error _ => o

/-- `decode` rewritten as a walk over the field list; provably identical to
`Osversion.decode`. -/
def decodeSteps (o : Osversion) (data : Fragment) : List FieldName → Osversion × Option String
  | [] => (o, Option.none)
  | f :: rest =>
    match o.setField f (decodeArg data f) with
    | Except.error e => (o, Option.some e)
    | Except.ok o2 => decodeSteps o2 data rest

/-- Apply the fragment-derived assignment of each listed field in order. -/
def foldUpdate (data : Fragment) (o : Osversion) : List FieldName → Osversion
  | [] => o
  | f :: rest => foldUpdate data (o.updateField f (decodeArg data f)) rest

theorem decode_eq_steps (o : Osversion) (data : Fragment) :
    o.decode data = decodeSteps o data allFields := rfl

theorem setField_err (f : FieldName) (o : Osversion) (v : PyValue)
    (h : declaredOk f v = false) : o.setField f v = Except.error (errMsgOf f) := by
  cases f <;> cases v <;>
    simp_all [declaredOk, PyValue.isStr, PyValue.isBool, PyValue.isList, PyValue.isDict,
      Osversion.setField, Osversion.set_signatures, Osversion.set_version_file,
      Osversion.set_version_file_regex, Osversion.set_kernel_arch,
      Osversion.set_kernel_arch_regex, Osversion.set_supported_arches,
      Osversion.set_supported_repo_breeds, Osversion.set_kernel_file,
      Osversion.set_initrd_file, Osversion.set_isolinux_ok,
      Osversion.set_default_autoinstall, Osversion.set_kernel_options,
      Osversion.set_kernel_options_post, Osversion.set_template_files,
      Osversion.set_boot_files, Osversion.set_boot_loaders, errMsgOf]

theorem setField_ok (f : FieldName) (o : Osversion) (v : PyValue)
    (h : declaredOk f v = true) : o.setField f v = Except.ok (o.updateField f v) := by
  cases f <;> cases v <;>
    simp_all [declaredOk, PyValue.isStr, PyValue.isBool, PyValue.isList, PyValue.isDict,
      Osversion.setField, Osversion.set_signatures, Osversion.set_version_file,
      Osversion.set_version_file_regex, Osversion.set_kernel_arch,
      Osversion.set_kernel_arch_regex, Osversion.set_supported_arches,
      Osversion.set_supported_repo_breeds, Osversion.set_kernel_file,
      Osversion.set_initrd_file, Osversion.set_isolinux_ok,
      Osversion.set_default_autoinstall, Osversion.set_kernel_options,
      Osversion.set_kernel_options_post, Osversion.set_template_files,
      Osversion.set_boot_files, Osversion.set_boot_loaders, Osversion.updateField]

theorem setField_ok_inv (f : FieldName) (o o2 : Osversion) (v : PyValue)
    (h : o.setField f v = Except.ok o2) :
    declaredOk f v = true ∧ o2 = o.updateField f v := by
  by_cases hd : declaredOk f v = true
  · rw [setField_ok f o v hd] at h
    exact ⟨hd, (Except.ok.injEq _ _ ▸ h).symm⟩
  · rw [setField_err f o v (by simpa using hd)] at h
    exact absurd h (by simp)

theorem getField_update_self (o : Osversion) (f : FieldName) (v : PyValue)
    (h : declaredOk f v = true) : (o.updateField f v).getField f = v := by
  cases f <;> cases v <;>
    simp_all [declaredOk, PyValue.isStr, PyValue.isBool, PyValue.isList, PyValue.isDict,
      Osversion.updateField, Osversion.getField]

theorem getField_update_other (o : Osversion) (f g : FieldName) (v : PyValue)
    (h : f ≠ g) : (o.updateField f v).getField g = o.getField g := by
  cases f <;> cases g <;> first
    | exact absurd rfl h
    | (cases v <;> rfl)

deriving instance Fintype for FieldName

theorem decodeSteps_fail (data : Fragment) :
    ∀ (pre : List FieldName) (o : Osversion) (k : FieldName) (suf : List FieldName),
    (∀ f ∈ pre, declaredOk f (decodeArg data f) = true) →
    declaredOk k (decodeArg data k) = false →
    decodeSteps o data (pre ++ k :: suf) =
      (foldUpdate data o pre, Option.some (errMsgOf k)) := by
  intro pre
  induction pre with
  | nil =>
    intro o k suf _ hk
    simp [decodeSteps, foldUpdate, setField_err k o _ hk]
  | cons f rest ih =>
    intro o k suf hpre hk
    have hf : declaredOk f (decodeArg data f) = true := hpre f (by simp)
    simp only [List.cons_append, decodeSteps, setField_ok f o _ hf, foldUpdate]
    exact ih _ k suf (fun g hg => hpre g (by simp [hg])) hk

theorem foldUpdate_get_nmem (data : Fragment) :
    ∀ (pre : List FieldName) (o : Osversion) (i : FieldName), i ∉ pre →
    (foldUpdate data o pre).getField i = o.getField i := by
  intro pre
  induction pre with
  | nil => intro o i _; rfl
  | cons f rest ih =>
    intro o i hi
    have hfi : f ≠ i := fun he => hi (by simp [he])
    rw [foldUpdate, ih _ i (fun hm => hi (by simp [hm])),
      getField_update_other o f i _ hfi]

theorem foldUpdate_get_mem (data : Fragment) :
    ∀ (pre : List FieldName) (o : Osversion) (i : FieldName), pre.Nodup → i ∈ pre →
    (∀ f ∈ pre, declaredOk f (decodeArg data f) = true) →
    (foldUpdate data o pre).getField i = decodeArg data i := by
  intro pre
  induction pre with
  | nil => intro o i _ hi; exact absurd hi (by simp)
  | cons f rest ih =>
    intro o i hnd hi hok
    rcases List.mem_cons.mp hi with he | hm
    · subst he
      have hir : i ∉ rest := (List.nodup_cons.mp hnd).1
      rw [foldUpdate, foldUpdate_get_nmem data rest _ i hir,
        getField_update_self o i _ (hok i (by simp))]
    · exact ih _ i (List.nodup_cons.mp hnd).2 hm (fun g hg => hok g (by simp [hg]))

theorem decodeSteps_congr (d1 d2 : Fragment) :
    ∀ (fs : List FieldName), (∀ f ∈ fs, decodeArg d1 f = decodeArg d2 f) →
    ∀ o : Osversion, decodeSteps o d1 fs = decodeSteps o d2 fs := by
  intro fs
  induction fs with
  | nil => intro _ o; rfl
  | cons f rest ih =>
    intro h o
    simp only [decodeSteps, h f (by simp)]
    cases o.setField f (decodeArg d2 f) with
    | error e => rfl
    | ok o2 => exact ih (fun g hg => h g (by simp [hg])) o2

theorem dictFind_skip (k : String) (v : PyValue) :
    ∀ (pre suf : List (String × PyValue)) (key : String), key ≠ k →
    dictFind (pre ++ (k, v) :: suf) key = dictFind (pre ++ suf) key := by
  intro pre
  induction pre with
  | nil =>
    intro suf key hne
    simp [dictFind, hne]
  | cons p rest ih =>
    intro suf key hne
    obtain ⟨k2, v2⟩ := p
    by_cases he : key = k2
    · simp [dictFind, he]
    · simp only [List.cons_append, dictFind, if_neg he]
      exact ih suf key hne

theorem key_mem_fieldNames (f : FieldName) : f.key ∈ fieldNamesList := by
  cases f <;> simp [FieldName.key, fieldNamesList]

theorem pyEqLookup_eq_find (k : String) (v : PyValue) :
    ∀ d : List (String × PyValue), pyEqLookup k v d =
      (match dictFind d k with
       | Option.some v2 => pyEq v v2
       | Option.none => false) := by
  intro d
  induction d with
  | nil => simp [pyEqLookup, dictFind]
  | cons p rest ih =>
    obtain ⟨k2, v2⟩ := p
    by_cases he : k = k2
    · simp [pyEqLookup, dictFind, he]
    · simp [pyEqLookup, dictFind, he, ih]

theorem keyMem_iff_find :
    ∀ (d : List (String × PyValue)) (k : String),
    keyMem k d = true ↔ (dictFind d k).isSome = true := by
  intro d
  induction d with
  | nil => intro k; simp [keyMem, dictFind]
  | cons p rest ih =>
    intro k
    obtain ⟨k2, v2⟩ := p
    by_cases he : k = k2
    · simp [keyMem, dictFind, he]
    · simp [keyMem, dictFind, he, ih]

theorem mem_of_find :
    ∀ (d : List (String × PyValue)) (k : String) (v : PyValue),
    dictFind d k = Option.some v → (k, v) ∈ d := by
  intro d
  induction d with
  | nil => intro k v h; simp [dictFind] at h
  | cons p rest ih =>
    intro k v h
    obtain ⟨k2, v2⟩ := p
    by_cases he : k = k2
    · rw [dictFind, if_pos he] at h
      subst he
      exact (Option.some_inj.mp h) ▸ List.mem_cons_self _ _
    · rw [dictFind, if_neg he] at h
      exact List.mem_cons_of_mem _ (ih k v h)

theorem keyMem_of_mem :
    ∀ (d : List (String × PyValue)) (k : String) (v : PyValue),
    (k, v) ∈ d → keyMem k d = true := by
  intro d
  induction d with
  | nil => intro k v h; simp at h
  | cons p rest ih =>
    intro k v h
    obtain ⟨k2, v2⟩ := p
    rcases List.mem_cons.mp h with he | hm
    · rw [keyMem]
      simp [(Prod.mk.injEq _ _ _ _ ▸ he).1]
    · rw [keyMem]
      simp [ih k v hm]

theorem find_of_mem_nodup :
    ∀ (d : List (String × PyValue)) (k : String) (v : PyValue),
    keysNodupB d = true → (k, v) ∈ d → dictFind d k = Option.some v := by
  intro d
  induction d with
  | nil => intro k v _ h; simp at h
  | cons p rest ih =>
    intro k v hnd h
    obtain ⟨k2, v2⟩ := p
    rw [keysNodupB, Bool.and_eq_true, Bool.not_eq_true'] at hnd
    rcases List.mem_cons.mp h with he | hm
    · obtain ⟨hk, hv⟩ := Prod.mk.injEq _ _ _ _ ▸ he
      subst hk
      subst hv
      simp [dictFind]
    · have hne : k ≠ k2 := by
        intro he2
        subst he2
        rw [keyMem_of_mem rest k v hm] at hnd
        exact absurd hnd.1 (by simp)
      rw [dictFind, if_neg hne]
      exact ih k v hnd.2 hm

theorem wfList_mem (l : List PyValue) (h : wfList l = true) :
    ∀ x ∈ l, wf x = true := by
  induction l with
  | nil => simp
  | cons y ys ih =>
    intro x hx
    simp only [wfList, Bool.and_eq_true] at h
    rcases List.mem_cons.mp hx with he | hm
    · subst he
      exact h.1
    · exact ih h.2 x hm

theorem wfPairs_mem (d : List (String × PyValue)) (h : wfPairs d = true) :
    ∀ p ∈ d, wf p.2 = true := by
  induction d with
  | nil => simp
  | cons q rest ih =>
    intro p hp
    obtain ⟨qk, qv⟩ := q
    simp only [wfPairs, Bool.and_eq_true] at h
    rcases List.mem_cons.mp hp with he | hm
    · subst he
      exact h.1
    · exact ih h.2 p hm

theorem pyEqList_refl_of (l : List PyValue)
    (h : ∀ x ∈ l, pyEq x x = true) : pyEqList l l = true := by
  induction l with
  | nil => simp [pyEqList]
  | cons x xs ih =>
    simp [pyEqList, h x (by simp), ih (fun y hy => h y (by simp [hy]))]

theorem pyEqPairs_of_sub (d1 d : List (String × PyValue))
    (hnd : keysNodupB d = true) (hsub : ∀ p ∈ d1, p ∈ d)
    (hrefl : ∀ p ∈ d1, pyEq p.2 p.2 = true) : pyEqPairs d1 d = true := by
  induction d1 with
  | nil => simp [pyEqPairs]
  | cons p rest ih =>
    obtain ⟨k, v⟩ := p
    have hf : dictFind d k = Option.some v :=
      find_of_mem_nodup d k v hnd (hsub (k, v) (by simp))
    have hlk : pyEqLookup k v d = true := by
      rw [pyEqLookup_eq_find, hf]
      exact hrefl (k, v) (by simp)
    simp [pyEqPairs, hlk,
      ih (fun q hq => hsub q (by simp [hq])) (fun q hq => hrefl q (by simp [hq]))]

theorem pyEq_refl_bounded :
    ∀ (n : Nat) (v : PyValue), sizeOf v ≤ n → wf v = true → pyEq v v = true := by
  intro n
  induction n with
  | zero =>
    intro v hv _
    cases v <;> simp at hv
  | succ n ih =>
    intro v hv hwf
    cases v with
    | str s => simp [pyEq]
    | bool b => simp [pyEq]
    | int i => simp [pyEq]
    | none => simp [pyEq]
    | list l =>
      have hl : wfList l = true := by simpa [wf] using hwf
      have hsz : sizeOf l ≤ n := by simp at hv; omega
      have h2 : pyEqList l l = true :=
        pyEqList_refl_of l (fun x hx => ih x
          (by have h1 := List.sizeOf_lt_of_mem hx; omega)
          (wfList_mem l hl x hx))
      simp [pyEq, h2]
    | dict d =>
      have hwd : keysNodupB d = true ∧ wfPairs d = true := by
        simpa [wf, Bool.and_eq_true] using hwf
      have hsz : sizeOf d ≤ n := by simp at hv; omega
      have h2 : pyEqPairs d d = true :=
        pyEqPairs_of_sub d d hwd.1 (fun _ hp => hp) (fun p hp => ih p.2
          (by
            obtain ⟨a, b⟩ := p
            have h1 := List.sizeOf_lt_of_mem hp
            simp at h1 ⊢
            omega)
          (wfPairs_mem d hwd.2 p hp))
      simp [pyEq, h2]

theorem pyEq_refl (v : PyValue) (h : wf v = true) : pyEq v v = true :=
  pyEq_refl_bounded (sizeOf v) v le_rfl h

theorem pyEqList_refl (l : List PyValue) (h : wfList l = true) : pyEqList l l = true :=
  pyEqList_refl_of l (fun x hx => pyEq_refl x (wfList_mem l h x hx))

theorem pyEqPairs_refl (d : List (String × PyValue))
    (hnd : keysNodupB d = true) (h : wfPairs d = true) : pyEqPairs d d = true :=
  pyEqPairs_of_sub d d hnd (fun _ hp => hp)
    (fun p hp => pyEq_refl p.2 (wfPairs_mem d h p hp))

/-- A record is reachable from Python iff every dict stored anywhere in it
has pairwise-distinct keys (real Python dicts cannot hold duplicate keys). -/
def wfRecord (o : Osversion) : Bool :=
  wfList o.signatures && wfList o.supported_arches && wfList o.supported_repo_breeds &&
  wfList o.boot_files && keysNodupB o.boot_loaders && wfPairs o.boot_loaders

theorem Osversion.eq_refl_of_wf (o : Osversion) (h : wfRecord o = true) :
    Osversion.eq o o = true := by
  simp only [wfRecord, Bool.and_eq_true] at h
  obtain ⟨⟨⟨⟨⟨h1, h2⟩, h3⟩, h4⟩, h5⟩, h6⟩ := h
  simp [Osversion.eq, pyEqList_refl _ h1, pyEqList_refl _ h2, pyEqList_refl _ h3,
    pyEqList_refl _ h4, pyEqPairs_refl _ h5 h6]

theorem mem_keys_iff_keyMem (k : String) :
    ∀ d : List (String × PyValue), k ∈ d.map Prod.fst ↔ keyMem k d = true := by
  intro d
  induction d with
  | nil => simp [keyMem]
  | cons p rest ih =>
    obtain ⟨k2, v2⟩ := p
    by_cases he : k = k2
    · simp [keyMem, he]
    · simp [keyMem, he, Ne.symm he, ih]

theorem keysNodup_of_B :
    ∀ d : List (String × PyValue), keysNodupB d = true → (d.map Prod.fst).Nodup := by
  intro d
  induction d with
  | nil => intro _; simp
  | cons p rest ih =>
    intro h
    obtain ⟨k, v⟩ := p
    rw [keysNodupB, Bool.and_eq_true, Bool.not_eq_true'] at h
    refine List.nodup_cons.mpr ⟨?_, ih h.2⟩
    rw [mem_keys_iff_keyMem]
    simp [h.1]

theorem pyEqPairs_iff (d2 : List (String × PyValue)) :
    ∀ d1 : List (String × PyValue),
    pyEqPairs d1 d2 = true ↔ ∀ p ∈ d1, pyEqLookup p.1 p.2 d2 = true := by
  intro d1
  induction d1 with
  | nil => simp [pyEqPairs]
  | cons p rest ih =>
    obtain ⟨k, v⟩ := p
    simp [pyEqPairs, ih]

/-- Equality of two dicts as finite maps: the same key set (insertion order
irrelevant) and, key by key, values that compare equal under Python `==`. -/
def dictMapEquiv (d1 d2 : List (String × PyValue)) : Prop :=
  (d1.map Prod.fst).toFinset = (d2.map Prod.fst).toFinset ∧
  ∀ k v1 v2, dictFind d1 k = Option.some v1 → dictFind d2 k = Option.some v2 →
    pyEq v1 v2 = true

theorem pyEqDict_iff (d1 d2 : List (String × PyValue))
    (h1 : keysNodupB d1 = true) (h2 : keysNodupB d2 = true) :
    (d1.length = d2.length ∧ pyEqPairs d1 d2 = true) ↔ dictMapEquiv d1 d2 := by
  constructor
  · rintro ⟨hlen, hp⟩
    rw [pyEqPairs_iff] at hp
    constructor
    · have hsub : (d1.map Prod.fst).toFinset ⊆ (d2.map Prod.fst).toFinset := by
        intro k hk
        rw [List.mem_toFinset] at hk ⊢
        rw [List.mem_map] at hk
        obtain ⟨p, hpmem, hpk⟩ := hk
        obtain ⟨pk, pv⟩ := p
        have hlk := hp (pk, pv) hpmem
        rw [pyEqLookup_eq_find] at hlk
        cases hfind : dictFind d2 pk with
        | none => rw [hfind] at hlk; simp at hlk
        | some v2 =>
          rw [mem_keys_iff_keyMem, keyMem_iff_find, ← hpk]
          simp [hfind]
      have hcard : (d2.map Prod.fst).toFinset.card ≤ (d1.map Prod.fst).toFinset.card := by
        rw [List.toFinset_card_of_nodup (keysNodup_of_B d1 h1),
          List.toFinset_card_of_nodup (keysNodup_of_B d2 h2)]
        simp [hlen]
      exact Finset.eq_of_subset_of_card_le hsub hcard
    · intro k v1 v2 hf1 hf2
      have hm := mem_of_find d1 k v1 hf1
      have hlk := hp (k, v1) hm
      rw [pyEqLookup_eq_find, hf2] at hlk
      exact hlk
  · rintro ⟨hkeys, hvals⟩
    have hlen : d1.length = d2.length := by
      have e1 := List.toFinset_card_of_nodup (keysNodup_of_B d1 h1)
      have e2 := List.toFinset_card_of_nodup (keysNodup_of_B d2 h2)
      rw [hkeys, e2] at e1
      simpa using e1.symm
    refine ⟨hlen, ?_⟩
    rw [pyEqPairs_iff]
    intro p hpmem
    obtain ⟨k, v⟩ := p
    have hf1 : dictFind d1 k = Option.some v := find_of_mem_nodup d1 k v h1 hpmem
    have hk2 : (dictFind d2 k).isSome = true := by
      rw [← keyMem_iff_find, ← mem_keys_iff_keyMem]
      have hmem : k ∈ (d1.map Prod.fst).toFinset := by
        rw [List.mem_toFinset]
        exact List.mem_map.mpr ⟨(k, v), hpmem, rfl⟩
      rw [hkeys] at hmem
      rwa [List.mem_toFinset] at hmem
    obtain ⟨v2, hf2⟩ := Option.isSome_iff_exists.mp hk2
    rw [pyEqLookup_eq_find, hf2]
    exact hvals k v v2 hf1 hf2

/-- A concrete record exercising every kind of field content, used by the
closed instances below. -/
def sampleRecord : Osversion :=
  { signatures := [PyValue.str "Fedora", PyValue.dict [("n", PyValue.int 3)]]
    version_file := "etc/fedora-release"
    version_file_regex := "Fedora"
    kernel_arch := "x86_64"
    kernel_arch_regex := ""
    supported_arches := [PyValue.str "i386", PyValue.str "x86_64"]
    supported_repo_breeds := [PyValue.str "yum"]
    kernel_file := "vmlinuz(.*)"
    initrd_file := "initrd(.*).img"
    isolinux_ok := true
    default_autoinstall := "default.ks"
    kernel_options := ""
    kernel_options_post := ""
    template_files := ""
    boot_files := []
    boot_loaders := [("grub", PyValue.list [PyValue.str "x"]), ("pxe", PyValue.bool true)] }

/-- Claim C1: decoding the fragment produced by `encode` into a fresh
(default-constructed) record succeeds and yields a record that compares
equal, under `Osversion.__eq__`, to the original. The hypothesis `wfRecord`
states that every dict stored in the record has distinct keys, which is true
of every record reachable from Python. -/
theorem claim_C1_roundtrip (r : Osversion) (h : wfRecord r = true) :
    (Osversion.initial.decode r.encode).2 = Option.none ∧
    Osversion.eq (Osversion.initial.decode r.encode).1 r = true := by
  have hd : Osversion.initial.decode r.encode = (r, Option.none) := rfl
  rw [hd]
  exact ⟨rfl, Osversion.eq_refl_of_wf r h⟩

theorem claim_C1_roundtrip_witness :
    wfRecord sampleRecord = true ∧
    ((Osversion.initial.decode sampleRecord.encode).2 = Option.none ∧
     Osversion.eq (Osversion.initial.decode sampleRecord.encode).1 sampleRecord = true) := by
  have hwf : wfRecord sampleRecord = true := by
    simp [wfRecord, sampleRecord, wfList, wf, wfPairs, keysNodupB, keyMem]
  exact ⟨hwf, claim_C1_roundtrip sampleRecord hwf⟩

/-- Claim C2: evaluation of the code at the failing input. Decoding the
empty fragment does not succeed: `decode` reaches `kernel_file`, whose
missing-key default in the source is the list `[]` (line 662), and the
`kernel_file` setter rejects that list with its `TypeError`, leaving the
record as it was before the call (all earlier assignments wrote the same
default values a fresh record already had). -/
theorem claim_C2_empty_fragment_fails :
    Osversion.initial.decode ([] : Fragment) =
      (Osversion.initial, Option.some "The kernel_file should be a str.") := rfl

/-- Claim C3: for every field and every value failing the field's declared
`isinstance` check, the setter fails with the field's `TypeError` and the
record is unchanged (the raise happens before any assignment, so the call is
atomic). -/
theorem claim_C3_setter_atomic (f : FieldName) (o : Osversion) (v : PyValue)
    (h : declaredOk f v = false) :
    o.setField f v = Except.error (errMsgOf f) ∧ o.trySetField f v = o := by
  refine ⟨setField_err f o v h, ?_⟩
  simp [Osversion.trySetField, setField_err f o v h]

theorem claim_C3_setter_atomic_witness :
    declaredOk FieldName.isolinux_ok (PyValue.str "yes") = false ∧
    (sampleRecord.setField FieldName.isolinux_ok (PyValue.str "yes") =
        Except.error (errMsgOf FieldName.isolinux_ok) ∧
      sampleRecord.trySetField FieldName.isolinux_ok (PyValue.str "yes") = sampleRecord) :=
  ⟨rfl, claim_C3_setter_atomic FieldName.isolinux_ok sampleRecord (PyValue.str "yes") rfl⟩

/-- The four fields whose declared type is `list`. -/
def isListField : FieldName → Bool
  | FieldName.signatures => true
  | FieldName.supported_arches => true
  | FieldName.supported_repo_breeds => true
  | FieldName.boot_files => true
  | _ => false

/-- Whether a setter call succeeded. -/
def isOkB : Except String Osversion → Bool
  | Except.ok _ => true
  | Except.error _ => false

/-- Claim C4, counterexample: the `signatures` setter accepts the list
`[5]`, whose element is not a string — the claim says such an assignment
must fail. The source setter checks only `isinstance(value, list)`. -/
theorem claim_C4_cex :
    Osversion.initial.set_signatures (PyValue.list [PyValue.int 5]) =
      Except.ok { Osversion.initial with signatures := [PyValue.int 5] } := rfl

/-- Claim C4 as amended: for each sequence field the setter accepts a value
if and only if it is a list — element types are never inspected — and a
non-list value fails with the field's `TypeError`, leaving the field
unchanged. -/
theorem claim_C4_amended_list_only (f : FieldName) (o : Osversion) (v : PyValue)
    (h : isListField f = true) :
    isOkB (o.setField f v) = v.isList ∧
    (v.isList = false → o.trySetField f v = o) := by
  have hdecl : declaredOk f v = v.isList := by
    cases f <;> simp_all [isListField, declaredOk]
  constructor
  · by_cases hv : v.isList = true
    · rw [hv]
      rw [setField_ok f o v (hdecl.trans hv)]
      rfl
    · have hv' : v.isList = false := by simpa using hv
      rw [hv']
      rw [setField_err f o v (hdecl.trans hv')]
      rfl
  · intro hv
    simp [Osversion.trySetField, setField_err f o v (hdecl.trans hv)]

theorem claim_C4_amended_list_only_witness :
    isListField FieldName.signatures = true ∧
    isOkB (sampleRecord.setField FieldName.signatures (PyValue.list [PyValue.int 5])) =
      (PyValue.list [PyValue.int 5]).isList ∧
    isOkB (sampleRecord.setField FieldName.signatures (PyValue.str "x")) =
      (PyValue.str "x").isList ∧
    ((PyValue.str "x").isList = false →
      sampleRecord.trySetField FieldName.signatures (PyValue.str "x") = sampleRecord) :=
  ⟨rfl,
   (claim_C4_amended_list_only FieldName.signatures sampleRecord
     (PyValue.list [PyValue.int 5]) rfl).1,
   (claim_C4_amended_list_only FieldName.signatures sampleRecord
     (PyValue.str "x") rfl).1,
   (claim_C4_amended_list_only FieldName.signatures sampleRecord
     (PyValue.str "x") rfl).2⟩

/-- Claim C5: `encode` produces a mapping whose key list is exactly the
sixteen recognized field names, in order and without repetition, and the
value stored at each field's key is the record's current value of that
field. -/
theorem claim_C5_encode_exact (o : Osversion) :
    o.encode.map Prod.fst = fieldNamesList ∧
    ∀ f : FieldName, dictFind o.encode f.key = Option.some (o.getField f) := by
  refine ⟨rfl, ?_⟩
  intro f
  cases f <;> rfl

/-- Claim C6: a key that is not among the sixteen recognized field names is
ignored by `decode`: inserting such a key/value pair anywhere in the
fragment leaves `decode`'s result (final record and error alike)
unchanged. -/
theorem claim_C6_unknown_key_ignored (o : Osversion) (pre suf : Fragment)
    (k : String) (v : PyValue) (hk : k ∉ fieldNamesList) :
    o.decode (pre ++ (k, v) :: suf) = o.decode (pre ++ suf) := by
  have harg : ∀ f : FieldName,
      decodeArg (pre ++ (k, v) :: suf) f = decodeArg (pre ++ suf) f := by
    intro f
    have hne : f.key ≠ k := fun he => hk (he ▸ key_mem_fieldNames f)
    simp [decodeArg, dictGet, dictFind_skip k v pre suf f.key hne]
  rw [decode_eq_steps, decode_eq_steps]
  exact decodeSteps_congr _ _ allFields (fun f _ => harg f) o

theorem claim_C6_unknown_key_ignored_witness :
    "comment" ∉ fieldNamesList ∧
    Osversion.initial.decode ([] ++ ("comment", PyValue.str "x") :: []) =
      Osversion.initial.decode ([] ++ []) :=
  ⟨by decide,
   claim_C6_unknown_key_ignored Osversion.initial [] [] "comment" (PyValue.str "x")
     (by decide)⟩

/-- Claim C8: each field's deleter sets that field to its documented default
(empty string, empty list, `False`, or empty dict); the field remains
readable through its getter and every other field keeps its value. -/
theorem claim_C8_reset_default (f : FieldName) (o : Osversion) :
    (o.delField f).getField f = resetValue f ∧
    ∀ g : FieldName, g ≠ f → (o.delField f).getField g = o.getField g := by
  have hdel : o.delField f = o.updateField f (resetValue f) := by cases f <;> rfl
  have hok : declaredOk f (resetValue f) = true := by cases f <;> rfl
  rw [hdel]
  exact ⟨getField_update_self o f _ hok,
    fun g hg => getField_update_other o f g _ (Ne.symm hg)⟩

theorem claim_C8_reset_default_witness :
    (sampleRecord.delField FieldName.kernel_file).getField FieldName.kernel_file =
      resetValue FieldName.kernel_file ∧
    (sampleRecord.delField FieldName.kernel_file).getField FieldName.isolinux_ok =
      sampleRecord.getField FieldName.isolinux_ok :=
  ⟨(claim_C8_reset_default FieldName.kernel_file sampleRecord).1,
   (claim_C8_reset_default FieldName.kernel_file sampleRecord).2 FieldName.isolinux_ok
     (by decide)⟩

/-- Claim C10: a successful setter call stores exactly the given value in
the named field (its getter returns it) and leaves all fifteen other fields
unchanged. -/
theorem claim_C10_setter_frame (f : FieldName) (o o2 : Osversion) (v : PyValue)
    (h : o.setField f v = Except.ok o2) :
    o2.getField f = v ∧ ∀ g : FieldName, g ≠ f → o2.getField g = o.getField g := by
  obtain ⟨hok, he⟩ := setField_ok_inv f o o2 v h
  subst he
  exact ⟨getField_update_self o f v hok,
    fun g hg => getField_update_other o f g v (Ne.symm hg)⟩

theorem claim_C10_setter_frame_witness :
    sampleRecord.setField FieldName.kernel_arch (PyValue.str "ppc64") =
      Except.ok { sampleRecord with kernel_arch := "ppc64" } ∧
    ({ sampleRecord with kernel_arch := "ppc64" } : Osversion).getField
      FieldName.kernel_arch = PyValue.str "ppc64" ∧
    ({ sampleRecord with kernel_arch := "ppc64" } : Osversion).getField
      FieldName.boot_files = sampleRecord.getField FieldName.boot_files :=
  ⟨rfl,
   (claim_C10_setter_frame FieldName.kernel_arch sampleRecord _ (PyValue.str "ppc64")
     rfl).1,
   (claim_C10_setter_frame FieldName.kernel_arch sampleRecord _ (PyValue.str "ppc64")
     rfl).2 FieldName.boot_files (by decide)⟩

/-- The spec's field-by-field equality: every scalar field equal, every
sequence field equal elementwise in order under Python `==`, and
`boot_loaders` equal as a finite map (key set regardless of insertion
order). -/
def specRecordEq (a b : Osversion) : Prop :=
  pyEqList a.signatures b.signatures = true ∧
  a.version_file = b.version_file ∧
  a.version_file_regex = b.version_file_regex ∧
  a.kernel_arch = b.kernel_arch ∧
  a.kernel_arch_regex = b.kernel_arch_regex ∧
  pyEqList a.supported_arches b.supported_arches = true ∧
  pyEqList a.supported_repo_breeds b.supported_repo_breeds = true ∧
  a.kernel_file = b.kernel_file ∧
  a.initrd_file = b.initrd_file ∧
  a.isolinux_ok = b.isolinux_ok ∧
  a.default_autoinstall = b.default_autoinstall ∧
  a.kernel_options = b.kernel_options ∧
  a.kernel_options_post = b.kernel_options_post ∧
  a.template_files = b.template_files ∧
  pyEqList a.boot_files b.boot_files = true ∧
  dictMapEquiv a.boot_loaders b.boot_loaders

/-- Claim C7: `Osversion.__eq__` returns true exactly when all sixteen
fields compare pairwise equal — order-sensitive for the sequence fields and
order-insensitive (finite-map) for `boot_loaders`. The hypotheses state the
dict invariant every Python dict satisfies: distinct keys. -/
theorem claim_C7_eq_iff_fields (a b : Osversion)
    (ha : keysNodupB a.boot_loaders = true) (hb : keysNodupB b.boot_loaders = true) :
    Osversion.eq a b = true ↔ specRecordEq a b := by
  have hd := pyEqDict_iff a.boot_loaders b.boot_loaders ha hb
  simp only [Osversion.eq, specRecordEq, Bool.and_eq_true, decide_eq_true_eq,
    and_assoc, ← hd]

/-- Two records identical except that `boot_loaders` lists its two entries
in opposite insertion order. -/
def sampleRecordSwapped : Osversion :=
  { sampleRecord with
    boot_loaders := [("pxe", PyValue.bool true), ("grub", PyValue.list [PyValue.str "x"])] }

theorem claim_C7_eq_iff_fields_witness :
    keysNodupB sampleRecord.boot_loaders = true ∧
    keysNodupB sampleRecordSwapped.boot_loaders = true ∧
    (Osversion.eq sampleRecord sampleRecordSwapped = true ↔
      specRecordEq sampleRecord sampleRecordSwapped) :=
  ⟨rfl, rfl,
   claim_C7_eq_iff_fields sampleRecord sampleRecordSwapped rfl rfl⟩

theorem decode_fail_split (o : Osversion) (data : Fragment) (pre : List FieldName)
    (k : FieldName) (suf : List FieldName)
    (hsplit : allFields = pre ++ k :: suf) (hnodup : pre.Nodup)
    (hmem : ∀ i : FieldName, i ∈ pre ↔ i.pos < k.pos)
    (hpre : ∀ i : FieldName, i.pos < k.pos → declaredOk i (decodeArg data i) = true)
    (hk : declaredOk k (decodeArg data k) = false) :
    (o.decode data).2 = Option.some (errMsgOf k) ∧
    ∀ i : FieldName, (o.decode data).1.getField i =
      if i.pos < k.pos then decodeArg data i else o.getField i := by
  have hd : o.decode data = (foldUpdate data o pre, Option.some (errMsgOf k)) := by
    rw [decode_eq_steps, hsplit]
    exact decodeSteps_fail data pre o k suf (fun f hf => hpre f ((hmem f).mp hf)) hk
  rw [hd]
  refine ⟨rfl, ?_⟩
  intro i
  by_cases hi : i.pos < k.pos
  · rw [if_pos hi]
    exact foldUpdate_get_mem data pre o i hnodup ((hmem i).mpr hi)
      (fun f hf => hpre f ((hmem f).mp hf))
  · rw [if_neg hi]
    exact foldUpdate_get_nmem data pre o i (fun hm => hi ((hmem i).mp hm))

/-- Claim C9: when `decode` fails at field `k` (every field before `k` in
the fixed assignment order accepts its fragment-derived value and `k`
rejects its own), the raised `TypeError` is `k`'s, every field before `k`
has already been reassigned from the fragment, and every field at or after
`k` keeps its previous value. -/
theorem claim_C9_partial_decode (o : Osversion) (data : Fragment) (k : FieldName)
    (hpre : ∀ i : FieldName, i.pos < k.pos → declaredOk i (decodeArg data i) = true)
    (hk : declaredOk k (decodeArg data k) = false) :
    (o.decode data).2 = Option.some (errMsgOf k) ∧
    ∀ i : FieldName, (o.decode data).1.getField i =
      if i.pos < k.pos then decodeArg data i else o.getField i := by
  cases k with
  | signatures =>
    exact decode_fail_split o data []
      FieldName.signatures [FieldName.version_file, FieldName.version_file_regex, FieldName.kernel_arch, FieldName.kernel_arch_regex, FieldName.supported_arches, FieldName.supported_repo_breeds, FieldName.kernel_file, FieldName.initrd_file, FieldName.isolinux_ok, FieldName.default_autoinstall, FieldName.kernel_options, FieldName.kernel_options_post, FieldName.template_files, FieldName.boot_files, FieldName.boot_loaders]
      rfl (by decide) (by decide) hpre hk
  | version_file =>
    exact decode_fail_split o data [FieldName.signatures]
      FieldName.version_file [FieldName.version_file_regex, FieldName.kernel_arch, FieldName.kernel_arch_regex, FieldName.supported_arches, FieldName.supported_repo_breeds, FieldName.kernel_file, FieldName.initrd_file, FieldName.isolinux_ok, FieldName.default_autoinstall, FieldName.kernel_options, FieldName.kernel_options_post, FieldName.template_files, FieldName.boot_files, FieldName.boot_loaders]
      rfl (by decide) (by decide) hpre hk
  | version_file_regex =>
    exact decode_fail_split o data [FieldName.signatures, FieldName.version_file]
      FieldName.version_file_regex [FieldName.kernel_arch, FieldName.kernel_arch_regex, FieldName.supported_arches, FieldName.supported_repo_breeds, FieldName.kernel_file, FieldName.initrd_file, FieldName.isolinux_ok, FieldName.default_autoinstall, FieldName.kernel_options, FieldName.kernel_options_post, FieldName.template_files, FieldName.boot_files, FieldName.boot_loaders]
      rfl (by decide) (by decide) hpre hk
  | kernel_arch =>
    exact decode_fail_split o data [FieldName.signatures, FieldName.version_file, FieldName.version_file_regex]
      FieldName.kernel_arch [FieldName.kernel_arch_regex, FieldName.supported_arches, FieldName.supported_repo_breeds, FieldName.kernel_file, FieldName.initrd_file, FieldName.isolinux_ok, FieldName.default_autoinstall, FieldName.kernel_options, FieldName.kernel_options_post, FieldName.template_files, FieldName.boot_files, FieldName.boot_loaders]
      rfl (by decide) (by decide) hpre hk
  | kernel_arch_regex =>
    exact decode_fail_split o data [FieldName.signatures, FieldName.version_file, FieldName.version_file_regex, FieldName.kernel_arch]
      FieldName.kernel_arch_regex [FieldName.supported_arches, FieldName.supported_repo_breeds, FieldName.kernel_file, FieldName.initrd_file, FieldName.isolinux_ok, FieldName.default_autoinstall, FieldName.kernel_options, FieldName.kernel_options_post, FieldName.template_files, FieldName.boot_files, FieldName.boot_loaders]
      rfl (by decide) (by decide) hpre hk
  | supported_arches =>
    exact decode_fail_split o data [FieldName.signatures, FieldName.version_file, FieldName.version_file_regex, FieldName.kernel_arch, FieldName.kernel_arch_regex]
      FieldName.supported_arches [FieldName.supported_repo_breeds, FieldName.kernel_file, FieldName.initrd_file, FieldName.isolinux_ok, FieldName.default_autoinstall, FieldName.kernel_options, FieldName.kernel_options_post, FieldName.template_files, FieldName.boot_files, FieldName.boot_loaders]
      rfl (by decide) (by decide) hpre hk
  | supported_repo_breeds =>
    exact decode_fail_split o data [FieldName.signatures, FieldName.version_file, FieldName.version_file_regex, FieldName.kernel_arch, FieldName.kernel_arch_regex, FieldName.supported_arches]
      FieldName.supported_repo_breeds [FieldName.kernel_file, FieldName.initrd_file, FieldName.isolinux_ok, FieldName.default_autoinstall, FieldName.kernel_options, FieldName.kernel_options_post, FieldName.template_files, FieldName.boot_files, FieldName.boot_loaders]
      rfl (by decide) (by decide) hpre hk
  | kernel_file =>
    exact decode_fail_split o data [FieldName.signatures, FieldName.version_file, FieldName.version_file_regex, FieldName.kernel_arch, FieldName.kernel_arch_regex, FieldName.supported_arches, FieldName.supported_repo_breeds]
      FieldName.kernel_file [FieldName.initrd_file, FieldName.isolinux_ok, FieldName.default_autoinstall, FieldName.kernel_options, FieldName.kernel_options_post, FieldName.template_files, FieldName.boot_files, FieldName.boot_loaders]
      rfl (by decide) (by decide) hpre hk
  | initrd_file =>
    exact decode_fail_split o data [FieldName.signatures, FieldName.version_file, FieldName.version_file_regex, FieldName.kernel_arch, FieldName.kernel_arch_regex, FieldName.supported_arches, FieldName.supported_repo_breeds, FieldName.kernel_file]
      FieldName.initrd_file [FieldName.isolinux_ok, FieldName.default_autoinstall, FieldName.kernel_options, FieldName.kernel_options_post, FieldName.template_files, FieldName.boot_files, FieldName.boot_loaders]
      rfl (by decide) (by decide) hpre hk
  | isolinux_ok =>
    exact decode_fail_split o data [FieldName.signatures, FieldName.version_file, FieldName.version_file_regex, FieldName.kernel_arch, FieldName.kernel_arch_regex, FieldName.supported_arches, FieldName.supported_repo_breeds, FieldName.kernel_file, FieldName.initrd_file]
      FieldName.isolinux_ok [FieldName.default_autoinstall, FieldName.kernel_options, FieldName.kernel_options_post, FieldName.template_files, FieldName.boot_files, FieldName.boot_loaders]
      rfl (by decide) (by decide) hpre hk
  | default_autoinstall =>
    exact decode_fail_split o data [FieldName.signatures, FieldName.version_file, FieldName.version_file_regex, FieldName.kernel_arch, FieldName.kernel_arch_regex, FieldName.supported_arches, FieldName.supported_repo_breeds, FieldName.kernel_file, FieldName.initrd_file, FieldName.isolinux_ok]
      FieldName.default_autoinstall [FieldName.kernel_options, FieldName.kernel_options_post, FieldName.template_files, FieldName.boot_files, FieldName.boot_loaders]
      rfl (by decide) (by decide) hpre hk
  | kernel_options =>
    exact decode_fail_split o data [FieldName.signatures, FieldName.version_file, FieldName.version_file_regex, FieldName.kernel_arch, FieldName.kernel_arch_regex, FieldName.supported_arches, FieldName.supported_repo_breeds, FieldName.kernel_file, FieldName.initrd_file, FieldName.isolinux_ok, FieldName.default_autoinstall]
      FieldName.kernel_options [FieldName.kernel_options_post, FieldName.template_files, FieldName.boot_files, FieldName.boot_loaders]
      rfl (by decide) (by decide) hpre hk
  | kernel_options_post =>
    exact decode_fail_split o data [FieldName.signatures, FieldName.version_file, FieldName.version_file_regex, FieldName.kernel_arch, FieldName.kernel_arch_regex, FieldName.supported_arches, FieldName.supported_repo_breeds, FieldName.kernel_file, FieldName.initrd_file, FieldName.isolinux_ok, FieldName.default_autoinstall, FieldName.kernel_options]
      FieldName.kernel_options_post [FieldName.template_files, FieldName.boot_files, FieldName.boot_loaders]
      rfl (by decide) (by decide) hpre hk
  | template_files =>
    exact decode_fail_split o data [FieldName.signatures, FieldName.version_file, FieldName.version_file_regex, FieldName.kernel_arch, FieldName.kernel_arch_regex, FieldName.supported_arches, FieldName.supported_repo_breeds, FieldName.kernel_file, FieldName.initrd_file, FieldName.isolinux_ok, FieldName.default_autoinstall, FieldName.kernel_options, FieldName.kernel_options_post]
      FieldName.template_files [FieldName.boot_files, FieldName.boot_loaders]
      rfl (by decide) (by decide) hpre hk
  | boot_files =>
    exact decode_fail_split o data [FieldName.signatures, FieldName.version_file, FieldName.version_file_regex, FieldName.kernel_arch, FieldName.kernel_arch_regex, FieldName.supported_arches, FieldName.supported_repo_breeds, FieldName.kernel_file, FieldName.initrd_file, FieldName.isolinux_ok, FieldName.default_autoinstall, FieldName.kernel_options, FieldName.kernel_options_post, FieldName.template_files]
      FieldName.boot_files [FieldName.boot_loaders]
      rfl (by decide) (by decide) hpre hk
  | boot_loaders =>
    exact decode_fail_split o data [FieldName.signatures, FieldName.version_file, FieldName.version_file_regex, FieldName.kernel_arch, FieldName.kernel_arch_regex, FieldName.supported_arches, FieldName.supported_repo_breeds, FieldName.kernel_file, FieldName.initrd_file, FieldName.isolinux_ok, FieldName.default_autoinstall, FieldName.kernel_options, FieldName.kernel_options_post, FieldName.template_files, FieldName.boot_files]
      FieldName.boot_loaders []
      rfl (by decide) (by decide) hpre hk

/-- A fragment whose first wrong-typed value sits at `isolinux_ok`:
`kernel_file` is present (avoiding the missing-key slip at that field) and
`isolinux_ok` holds a string. -/
def wData : Fragment :=
  [("kernel_file", PyValue.str "vmlinuz"), ("isolinux_ok", PyValue.str "yes"),
   ("kernel_options", PyValue.str "quiet")]

theorem claim_C9_partial_decode_witness :
    (∀ i : FieldName, i.pos < FieldName.isolinux_ok.pos →
      declaredOk i (decodeArg wData i) = true) ∧
    declaredOk FieldName.isolinux_ok (decodeArg wData FieldName.isolinux_ok) = false ∧
    (Osversion.initial.decode wData).2 = Option.some (errMsgOf FieldName.isolinux_ok) ∧
    (Osversion.initial.decode wData).1.getField FieldName.kernel_file =
      decodeArg wData FieldName.kernel_file ∧
    (Osversion.initial.decode wData).1.getField FieldName.kernel_options =
      Osversion.initial.getField FieldName.kernel_options := by
  have h := claim_C9_partial_decode Osversion.initial wData FieldName.isolinux_ok
    (by decide) (by decide)
  refine ⟨by decide, by decide, h.1, ?_, ?_⟩
  · rw [h.2 FieldName.kernel_file]
    simp [FieldName.pos]
  · rw [h.2 FieldName.kernel_options]
    simp [FieldName.pos]
